import Mathlib

/-
Verification of the InclinometryPlugin trajectory core (Core/inclinometry.py,
Core/exporting.py, inclinometry_calc.py) against its specification.

The numeric model uses exact real arithmetic for Python floats.  Python's
float modulo (sign of the divisor) is `pymod`, Python's `int()` truncation
toward zero is `pyint`.  The external QGIS coordinate transformer is an
injected function parameter (`Transform`), as the spec's external-interface
section prescribes; `transform_xy_coordinates` keeps the source's identity
short-circuit for equal CRS ids.  Fallible Python code (constructor type
validation, numpy truthiness / fancy indexing) is modelled with `Except`.
-/

namespace Inclinometry

/-- Python float modulo `x % y` (for y > 0): result carries the divisor's sign. -/
noncomputable def pymod (x y : ℝ) : ℝ := x - y * ⌊x / y⌋

/-- Python `int()` conversion of a float: truncation toward zero. -/
noncomputable def pyint (x : ℝ) : ℤ := if 0 ≤ x then ⌊x⌋ else ⌈x⌉

/-- Model of `math.radians`. -/
noncomputable def radians (x : ℝ) : ℝ := x * Real.pi / 180

def WGS84_ID : ℤ := 4326

def PULKOVO1942_ID : ℤ := 4284

def MD_TYPE : String := "MD"

def XY_TYPE : String := "XYZ"

/-- Exceptions of the modelled Python code. -/
inductive PyExc where
  | dataTypeError
  | valueError
  | indexError
deriving DecidableEq

/-- One row of the trajectory store: the nine named columns of `ColumnIndexes`. -/
structure Station where
  md : ℝ
  incl : ℝ
  az : ℝ
  x_local : ℝ
  y_local : ℝ
  depth : ℝ
  altitude : ℝ
  x_global : ℝ
  y_global : ℝ

/-- A freshly `np.zeros`-initialised row. -/
def zeroStation : Station :=
  { md := 0, incl := 0, az := 0, x_local := 0, y_local := 0, depth := 0,
    altitude := 0, x_global := 0, y_global := 0 }

/-- The external CoordinateTransformer capability:
`transform(x, y, sourceCrsId, targetCrsId) -> (x, y)`. -/
abbrev Transform := ℝ → ℝ → ℤ → ℤ → ℝ × ℝ

/-- Model of `Well.transform_xy_coordinates`: identity when the CRS ids coincide,
otherwise the injected transformer. -/
def transform_xy_coordinates (tr : Transform) (x y : ℝ)
    (source_crs_id target_crs_id : ℤ) : ℝ × ℝ :=
  if source_crs_id = target_crs_id then (x, y)
  else tr x y source_crs_id target_crs_id

/-- The Well state: head position, CRS id, (mode-adjusted) magnetic
declination, processing mode string, and the owned trajectory store. -/
structure Well where
  x : ℝ
  y : ℝ
  altitude : ℝ
  crs_id : ℤ
  magnetic_declination : ℝ
  processing_type : String
  incl_data : List Station

/-- Model of `Well.get_result_azimuth`: `az_value %= 360`, then add 360 if negative. -/
noncomputable def get_result_azimuth (az_value : ℝ) : ℝ :=
  let r := pymod az_value 360
  if 0 ≤ r then r else 360 + r

/-- Model of `Well.get_middle_angle`: arithmetic mean when the angles are within 180° of
each other, otherwise the midpoint of the shorter arc across the 0/360 seam. -/
noncomputable def get_middle_angle (alpha beta : ℝ) : ℝ :=
  if |alpha - beta| ≤ 180 then (alpha + beta) / 2
  else get_result_azimuth (min alpha beta - (360 - |alpha - beta|) / 2)

/-- Model of `Well.get_gk_zone_index`: `int((x_base + 6) / 6)` over the head position
transformed into the Pulkovo 1942 base CRS. -/
noncomputable def get_gk_zone_index (tr : Transform) (w : Well) : ℤ :=
  pyint (((transform_xy_coordinates tr w.x w.y w.crs_id PULKOVO1942_ID).1 + 6) / 6)

/-- Model of `Well.get_gk_crs_id`: `28400 + zone_index`. -/
noncomputable def get_gk_crs_id (tr : Transform) (w : Well) : ℤ :=
  28400 + get_gk_zone_index tr w

/-- Model of `Well.meridian_correction`: `(x_base - central_meridian) * sin(radians(y_base))`
with `central_meridian = 6 * zone_index - 3`. -/
noncomputable def meridian_correction (tr : Transform) (w : Well) : ℝ :=
  let p := transform_xy_coordinates tr w.x w.y w.crs_id PULKOVO1942_ID
  (p.1 - (6 * (get_gk_zone_index tr w : ℝ) - 3)) * Real.sin (radians p.2)

/-- Model of `Well.total_angle_correction`, the difference `magnetic_declination - meridian_correction`. -/
noncomputable def total_angle_correction (tr : Transform) (w : Well) : ℝ :=
  w.magnetic_declination - meridian_correction tr w

/-! ## Helper lemmas about the angle functions -/

theorem pymod_eq_fract (x : ℝ) : pymod x 360 = 360 * Int.fract (x / 360) := by
  have h : (360 : ℝ) * (x / 360) = x := by
    field_simp
  simp only [pymod, Int.fract, mul_sub, h]

theorem pymod_nonneg_lt (x : ℝ) : 0 ≤ pymod x 360 ∧ pymod x 360 < 360 := by
  rw [pymod_eq_fract]
  constructor
  · have := Int.fract_nonneg (x / 360)
    nlinarith
  · have := Int.fract_lt_one (x / 360)
    nlinarith

theorem get_result_azimuth_eq_pymod (x : ℝ) :
    get_result_azimuth x = pymod x 360 := by
  unfold get_result_azimuth
  simp only [if_pos (pymod_nonneg_lt x).1]

theorem get_result_azimuth_eq_self (x : ℝ) (h0 : 0 ≤ x) (h1 : x < 360) :
    get_result_azimuth x = x := by
  rw [get_result_azimuth_eq_pymod, pymod]
  have hf : ⌊x / 360⌋ = 0 := by
    rw [Int.floor_eq_zero_iff]
    constructor
    · positivity
    · rw [div_lt_one (by norm_num : (0:ℝ) < 360)]
      simpa using h1
  rw [hf]
  push_cast
  ring

/-! ## The two integration algorithms -/

/-- One iteration of the survey-angle (`calc_inclinometry_by_md`) loop body:
`prev` is the already-processed row `i-1`, `cur` the row `i` whose azimuth has
already received the global correction. -/
noncomputable def mdStep (x_gk_head y_gk_head head_altitude : ℝ)
    (prev cur : Station) : Station :=
  let mid_az := radians (get_middle_angle prev.az cur.az)
  let mid_incl := radians ((cur.incl + prev.incl) / 2)
  let delta_md := cur.md - prev.md
  let dx := delta_md * Real.sin mid_incl * Real.sin mid_az
  let dy := delta_md * Real.sin mid_incl * Real.cos mid_az
  let dz := delta_md * Real.cos mid_incl
  { cur with
    x_local := prev.x_local + dx
    y_local := prev.y_local + dy
    x_global := prev.x_local + dx + x_gk_head
    y_global := prev.y_local + dy + y_gk_head
    depth := prev.depth + dz
    altitude := head_altitude - (prev.depth + dz) }

/-- The `for i in range(1, n)` loop of `calc_inclinometry_by_md`: each written
row becomes the `i-1` row of the next iteration. -/
noncomputable def mdLoop (x_gk_head y_gk_head head_altitude : ℝ) :
    Station → List Station → List Station
  | _, [] => []
  | prev, cur :: rest =>
      let cur' := mdStep x_gk_head y_gk_head head_altitude prev cur
      cur' :: mdLoop x_gk_head y_gk_head head_altitude cur' rest

/-- Model of `Well.calc_inclinometry_by_md`: correct every azimuth by the total angle
correction, put the transformed head into row 0's global columns, then
integrate station to station.  (On an empty table the source would fault on
`arr[0, ...]`; the model returns the empty table.) -/
noncomputable def calc_inclinometry_by_md (tr : Transform) (w : Well)
    (rows : List Station) : List Station :=
  let c := total_angle_correction tr w
  let corrected := rows.map (fun r => { r with az := get_result_azimuth (r.az + c) })
  let head := transform_xy_coordinates tr w.x w.y w.crs_id (get_gk_crs_id tr w)
  match corrected with
  | [] => []
  | r0 :: rest =>
      let r0' := { r0 with x_global := head.1, y_global := head.2 }
      r0' :: mdLoop head.1 head.2 w.altitude r0' rest

/-- One iteration of the displacement (`calc_inclinometry_by_xyz`) loop body:
`cur` is the zero-shifted row `i`, `prev` the already-processed row `i-1`. -/
noncomputable def xyzStep (rotate_angle x_gk_head y_gk_head head_altitude : ℝ)
    (prev cur : Station) : Station :=
  let dx := cur.x_local - prev.x_local
  let dy := cur.y_local - prev.y_local
  let dz := cur.depth - prev.depth
  let delta_md := Real.sqrt (dx ^ 2 + dy ^ 2 + dz ^ 2)
  { cur with
    md := prev.md + delta_md
    x_global := x_gk_head +
      (cur.x_local * Real.cos rotate_angle - cur.y_local * Real.sin rotate_angle)
    y_global := y_gk_head +
      (cur.x_local * Real.sin rotate_angle + cur.y_local * Real.cos rotate_angle)
    altitude := head_altitude - cur.depth }

/-- The `for i in range(1, n)` loop of `calc_inclinometry_by_xyz`. -/
noncomputable def xyzLoop (rotate_angle x_gk_head y_gk_head head_altitude : ℝ) :
    Station → List Station → List Station
  | _, [] => []
  | prev, cur :: rest =>
      let cur' := xyzStep rotate_angle x_gk_head y_gk_head head_altitude prev cur
      cur' :: xyzLoop rotate_angle x_gk_head y_gk_head head_altitude cur' rest

/-- Model of `Well.calc_inclinometry_by_xyz`: zero-shift all local columns by row 0's
values, put the transformed head into row 0's global columns, then accumulate
measured depth and rotate the locals by the meridian correction. -/
noncomputable def calc_inclinometry_by_xyz (tr : Transform) (w : Well)
    (rows : List Station) : List Station :=
  match rows with
  | [] => []
  | r0 :: rest =>
      let shift := fun (r : Station) =>
        { r with x_local := r.x_local - r0.x_local,
                 y_local := r.y_local - r0.y_local,
                 depth := r.depth - r0.depth }
      let head := transform_xy_coordinates tr w.x w.y w.crs_id (get_gk_crs_id tr w)
      let r0' := { shift r0 with x_global := head.1, y_global := head.2 }
      let rotate_angle := radians (meridian_correction tr w)
      r0' :: xyzLoop rotate_angle head.1 head.2 w.altitude r0' (rest.map shift)

/-- Model of `Well.processing`: dispatch on the processing mode. -/
noncomputable def processing (tr : Transform) (w : Well) : Well :=
  if w.processing_type = MD_TYPE then
    { w with incl_data := calc_inclinometry_by_md tr w w.incl_data }
  else
    { w with incl_data := calc_inclinometry_by_xyz tr w w.incl_data }

/-- The row-0 altitude write `self.__incl_data[0, ColumnIndexes.altitude] =
altitude` of `Well.__init__`: on an empty table the numpy assignment raises
IndexError. -/
def storeFromBase (altitude : ℝ) : List Station → Except PyExc (List Station)
  | [] => .error .indexError
  | r :: rest => .ok ({ r with altitude := altitude } :: rest)

/-- The raw-column copy of `Well.__init__`: a zero table with the three input
columns filled according to the mode, then row 0's altitude set to the head
altitude — which faults with IndexError when there are no station rows. -/
def buildInitialStore (altitude : ℝ) (processing_type : String)
    (inclination_data : List (ℝ × ℝ × ℝ)) : Except PyExc (List Station) :=
  storeFromBase altitude (inclination_data.map (fun t =>
    if processing_type = MD_TYPE then
      { zeroStation with md := t.1, incl := t.2.1, az := t.2.2 }
    else
      { zeroStation with x_local := t.1, y_local := t.2.1, depth := t.2.2 }))

/-- Model of `Well.__init__` (Core revision): validate the mode before any
numeric work (an invalid mode raises the data-type error and nothing else
runs), zero the declination in displacement mode, copy the raw columns — the
row-0 altitude write faults on an empty table — and run `processing` once.
(The table width constant is modelled as the intended 9, as the older
revision's working `ColumnIndexes.length` spells it.) -/
noncomputable def mkWell (tr : Transform) (x y altitude : ℝ) (crs_id : ℤ)
    (magnetic_declination : ℝ) (processing_type : String)
    (inclination_data : List (ℝ × ℝ × ℝ)) : Except PyExc Well :=
  if processing_type = MD_TYPE ∨ processing_type = XY_TYPE then
    match buildInitialStore altitude processing_type inclination_data with
    | .error e => .error e
    | .ok store =>
        .ok (processing tr
          { x := x, y := y, altitude := altitude, crs_id := crs_id,
            magnetic_declination :=
              if processing_type = MD_TYPE then magnetic_declination else 0,
            processing_type := processing_type,
            incl_data := store })
  else
    .error .dataTypeError

/-- The deterministic fake transformer used for concrete instances. -/
def idTransform : Transform := fun a b _ _ => (a, b)

/-- C8: `normalize_azimuth(x)` lies in `[0, 360)` for every real input `x`, and
`normalize_azimuth(x) = normalize_azimuth(x + 360*k)` for every integer `k`. -/
theorem C8_normalize_azimuth_range_and_period (x : ℝ) (k : ℤ) :
    0 ≤ get_result_azimuth x ∧ get_result_azimuth x < 360 ∧
      get_result_azimuth (x + 360 * k) = get_result_azimuth x := by
  refine ⟨?_, ?_, ?_⟩
  · rw [get_result_azimuth_eq_pymod]
    exact (pymod_nonneg_lt x).1
  · rw [get_result_azimuth_eq_pymod]
    exact (pymod_nonneg_lt x).2
  · rw [get_result_azimuth_eq_pymod, get_result_azimuth_eq_pymod,
        pymod_eq_fract, pymod_eq_fract]
    have h : (x + 360 * k) / 360 = x / 360 + k := by
      field_simp
      ring
    rw [h, Int.fract_add_int]

/-- C9: `circular_midpoint` is symmetric in its two arguments, and across the
0/360 seam it returns the shorter-arc midpoint: `circular_midpoint(10, 350) = 0`,
not the naive arithmetic mean 180. -/
theorem C9_middle_angle_symm_and_seam (a b : ℝ) :
    get_middle_angle a b = get_middle_angle b a ∧
      get_middle_angle 10 350 = 0 ∧ get_middle_angle 10 350 ≠ 180 := by
  have hseam : get_middle_angle 10 350 = 0 := by
    unfold get_middle_angle
    have habs : |(10 : ℝ) - 350| = 340 := by
      rw [show (10 : ℝ) - 350 = -340 by norm_num, abs_neg, abs_of_nonneg]
      norm_num
    rw [habs, if_neg (by norm_num), min_eq_left (by norm_num : (10:ℝ) ≤ 350)]
    rw [show (10 : ℝ) - (360 - 340) / 2 = 0 by norm_num]
    rw [get_result_azimuth_eq_self 0 le_rfl (by norm_num)]
  refine ⟨?_, hseam, ?_⟩
  · unfold get_middle_angle
    rw [abs_sub_comm a b, min_comm a b, add_comm a b]
  · rw [hseam]
    norm_num

theorem storeFromBase_cases (altitude : ℝ) (l : List Station) :
    storeFromBase altitude l = .error .indexError ∨
      ∃ s, storeFromBase altitude l = .ok s := by
  cases l with
  | nil => exact Or.inl rfl
  | cons r rest => exact Or.inr ⟨_, rfl⟩

theorem buildInitialStore_cases (altitude : ℝ) (pt : String)
    (data : List (ℝ × ℝ × ℝ)) :
    buildInitialStore altitude pt data = .error .indexError ∨
      ∃ s, buildInitialStore altitude pt data = .ok s :=
  storeFromBase_cases altitude _

/-- A recognized mode never produces the invalid-mode error: construction
either succeeds or faults with the empty-table IndexError, never with the
data-type error. -/
theorem mkWell_valid_ne_dataTypeError (tr : Transform) (x y altitude : ℝ)
    (crs_id : ℤ) (m : ℝ) (pt : String) (data : List (ℝ × ℝ × ℝ))
    (h : pt = MD_TYPE ∨ pt = XY_TYPE) :
    mkWell tr x y altitude crs_id m pt data ≠ .error .dataTypeError := by
  unfold mkWell
  rw [if_pos h]
  rcases buildInitialStore_cases altitude pt data with hb | ⟨s, hb⟩
  · rw [hb]
    intro hcon
    injection hcon with h2
    exact absurd h2 (by decide)
  · rw [hb]
    intro hcon
    injection hcon

/-- C10: constructing a Well with a mode string other than `MD` / `XYZ` fails
with the invalid-mode data-type error before any numeric work, yielding no
Well; construction with either recognized mode never raises that error (it
may still fault on an empty station table — the row-0 altitude write — but
not with the invalid-mode error). -/
theorem C10_invalid_mode_rejected (tr : Transform) (x y altitude : ℝ)
    (crs_id : ℤ) (m : ℝ) (pt : String) (data : List (ℝ × ℝ × ℝ))
    (h1 : pt ≠ MD_TYPE) (h2 : pt ≠ XY_TYPE) :
    mkWell tr x y altitude crs_id m pt data = .error .dataTypeError ∧
      mkWell tr x y altitude crs_id m MD_TYPE data ≠ .error .dataTypeError ∧
      mkWell tr x y altitude crs_id m XY_TYPE data ≠ .error .dataTypeError := by
  refine ⟨?_, ?_, ?_⟩
  · unfold mkWell
    rw [if_neg]
    rintro (h | h)
    · exact h1 h
    · exact h2 h
  · exact mkWell_valid_ne_dataTypeError tr x y altitude crs_id m MD_TYPE data
      (Or.inl rfl)
  · exact mkWell_valid_ne_dataTypeError tr x y altitude crs_id m XY_TYPE data
      (Or.inr rfl)

/-- Witness for C10 at the concrete mode string `AB` and a one-station table. -/
theorem C10_invalid_mode_rejected_witness :
    mkWell idTransform 0 0 0 4284 0 "AB" [(0, 0, 0)] = .error .dataTypeError ∧
      mkWell idTransform 0 0 0 4284 0 MD_TYPE [(0, 0, 0)] ≠
        .error .dataTypeError ∧
      mkWell idTransform 0 0 0 4284 0 XY_TYPE [(0, 0, 0)] ≠
        .error .dataTypeError :=
  C10_invalid_mode_rejected idTransform 0 0 0 4284 0 "AB" [(0, 0, 0)]
    (by decide) (by decide)

/-- A concrete well head west of the base meridian: `x_base = -9`. -/
def wellNeg : Well :=
  { x := -9, y := 0, altitude := 0, crs_id := 4284,
    magnetic_declination := 0, processing_type := MD_TYPE, incl_data := [] }

/-- A concrete well head at the origin of the base CRS. -/
def wellZero : Well :=
  { x := 0, y := 0, altitude := 0, crs_id := 4284,
    magnetic_declination := 0, processing_type := MD_TYPE, incl_data := [] }

/-- C5 counterexample: at `x_base = -9` the code's `int((x_base + 6) / 6)`
truncates `-0.5` toward zero and yields zone index 0, while
`floor((x_base + 6) / 6) = -1`: the claim's floor formula fails for negative
`x_base`. -/
theorem C5_zone_index_counterexample :
    get_gk_zone_index idTransform wellNeg = 0 ∧
      ⌊(((transform_xy_coordinates idTransform wellNeg.x wellNeg.y
          wellNeg.crs_id PULKOVO1942_ID).1 + 6) / 6)⌋ = -1 := by
  have htr : transform_xy_coordinates idTransform wellNeg.x wellNeg.y
      wellNeg.crs_id PULKOVO1942_ID = (-9, 0) := by
    unfold transform_xy_coordinates wellNeg PULKOVO1942_ID
    norm_num
  constructor
  · unfold get_gk_zone_index pyint
    rw [htr]
    rw [show ((-9 : ℝ), (0 : ℝ)).1 = (-9 : ℝ) from rfl]
    rw [show ((-9 : ℝ) + 6) / 6 = (-(1 / 2) : ℝ) by norm_num]
    rw [if_neg (by norm_num)]
    norm_num
  · rw [htr]
    norm_num

/-- C5 amended: the zone index is the *truncation toward zero* of
`(x_base + 6) / 6`; it agrees with the claimed floor exactly when
`x_base ≥ -6` (nonnegative quotient), and the zone CRS id is
`28400 + zone_index`. -/
theorem C5_zone_index_amended (tr : Transform) (w : Well)
    (h : -6 ≤ (transform_xy_coordinates tr w.x w.y w.crs_id PULKOVO1942_ID).1) :
    get_gk_zone_index tr w =
      ⌊(((transform_xy_coordinates tr w.x w.y w.crs_id PULKOVO1942_ID).1 + 6) / 6)⌋ ∧
      get_gk_crs_id tr w = 28400 + get_gk_zone_index tr w := by
  constructor
  · unfold get_gk_zone_index pyint
    rw [if_pos]
    have h6 : (0 : ℝ) ≤ (transform_xy_coordinates tr w.x w.y w.crs_id
        PULKOVO1942_ID).1 + 6 := by linarith
    positivity
  · rfl

/-- Witness for C5's amended claim at the concrete head `(0, 0)` in the base
CRS: zone index `floor(1) = 1`, zone CRS id `28401`. -/
theorem C5_zone_index_amended_witness :
    -6 ≤ (transform_xy_coordinates idTransform wellZero.x wellZero.y
        wellZero.crs_id PULKOVO1942_ID).1 ∧
      (get_gk_zone_index idTransform wellZero =
        ⌊(((transform_xy_coordinates idTransform wellZero.x wellZero.y
            wellZero.crs_id PULKOVO1942_ID).1 + 6) / 6)⌋ ∧
        get_gk_crs_id idTransform wellZero =
          28400 + get_gk_zone_index idTransform wellZero) := by
  have h : -6 ≤ (transform_xy_coordinates idTransform wellZero.x wellZero.y
      wellZero.crs_id PULKOVO1942_ID).1 := by
    unfold transform_xy_coordinates wellZero PULKOVO1942_ID
    norm_num
  exact ⟨h, C5_zone_index_amended idTransform wellZero h⟩

/-! ## Loop lemmas for the survey-angle calculator -/

theorem mdStep_md (xh yh alt : ℝ) (p c : Station) :
    (mdStep xh yh alt p c).md = c.md := rfl

theorem mdStep_incl (xh yh alt : ℝ) (p c : Station) :
    (mdStep xh yh alt p c).incl = c.incl := rfl

theorem mdStep_az (xh yh alt : ℝ) (p c : Station) :
    (mdStep xh yh alt p c).az = c.az := rfl

theorem mdStep_x_local (xh yh alt : ℝ) (p c : Station) :
    (mdStep xh yh alt p c).x_local =
      p.x_local + (c.md - p.md) * Real.sin (radians ((c.incl + p.incl) / 2)) *
        Real.sin (radians (get_middle_angle p.az c.az)) := rfl

theorem mdStep_y_local (xh yh alt : ℝ) (p c : Station) :
    (mdStep xh yh alt p c).y_local =
      p.y_local + (c.md - p.md) * Real.sin (radians ((c.incl + p.incl) / 2)) *
        Real.cos (radians (get_middle_angle p.az c.az)) := rfl

theorem mdStep_depth (xh yh alt : ℝ) (p c : Station) :
    (mdStep xh yh alt p c).depth =
      p.depth + (c.md - p.md) * Real.cos (radians ((c.incl + p.incl) / 2)) := rfl

theorem mdStep_x_global (xh yh alt : ℝ) (p c : Station) :
    (mdStep xh yh alt p c).x_global = (mdStep xh yh alt p c).x_local + xh := rfl

theorem mdStep_y_global (xh yh alt : ℝ) (p c : Station) :
    (mdStep xh yh alt p c).y_global = (mdStep xh yh alt p c).y_local + yh := rfl

theorem mdStep_altitude (xh yh alt : ℝ) (p c : Station) :
    (mdStep xh yh alt p c).altitude = alt - (mdStep xh yh alt p c).depth := rfl

theorem mdLoop_length (xh yh alt : ℝ) (p : Station) (l : List Station) :
    (mdLoop xh yh alt p l).length = l.length := by
  induction l generalizing p with
  | nil => rfl
  | cons a t ih => simp [mdLoop, ih]

theorem mdLoop_getD (xh yh alt : ℝ) (p : Station) (l : List Station) (i : ℕ)
    (h : i < l.length) :
    (mdLoop xh yh alt p l).getD i zeroStation =
      mdStep xh yh alt
        (if i = 0 then p else (mdLoop xh yh alt p l).getD (i - 1) zeroStation)
        (l.getD i zeroStation) := by
  induction l generalizing p i with
  | nil => simp at h
  | cons a t ih =>
    cases i with
    | zero => simp [mdLoop]
    | succ j =>
      have hj : j < t.length := by simpa using h
      simp only [mdLoop, List.getD_cons_succ]
      rw [ih (mdStep xh yh alt p a) j hj]
      cases j with
      | zero => simp
      | succ k => simp

theorem getD_map_lt {α β : Type} (f : α → β) (l : List α) (i : ℕ) (d : α)
    (d' : β) (h : i < l.length) :
    (l.map f).getD i d' = f (l.getD i d) := by
  rw [List.getD_eq_getElem _ _ (by simpa using h), List.getD_eq_getElem _ _ h,
    List.getElem_map]

/-- C1: for a Well in survey-angle mode, `processing` replaces every row's
azimuth with `normalize_azimuth(azimuth + total_angle_correction)`, sets row
0's global columns to the head transformed into the zone CRS, and fills each
subsequent row by the average-angle recurrence: `x_local[i] = x_local[i-1] +
delta_md*sin(mid_incl)*sin(mid_az)`, `y_local[i] = y_local[i-1] +
delta_md*sin(mid_incl)*cos(mid_az)`, `depth[i] = depth[i-1] +
delta_md*cos(mid_incl)`, `x_global[i] = x_local[i] + x_global[0]`,
`y_global[i] = y_local[i] + y_global[0]`, `altitude[i] = head_altitude -
depth[i]`, with angles converted to radians before the trigonometry. -/
theorem C1_md_integration (tr : Transform) (w : Well)
    (hmode : w.processing_type = MD_TYPE) :
    (processing tr w).incl_data.length = w.incl_data.length ∧
    (∀ i, i < w.incl_data.length →
      ((processing tr w).incl_data.getD i zeroStation).az =
        get_result_azimuth ((w.incl_data.getD i zeroStation).az +
          total_angle_correction tr w)) ∧
    (w.incl_data ≠ [] →
      ((processing tr w).incl_data.getD 0 zeroStation).x_global =
        (transform_xy_coordinates tr w.x w.y w.crs_id (get_gk_crs_id tr w)).1 ∧
      ((processing tr w).incl_data.getD 0 zeroStation).y_global =
        (transform_xy_coordinates tr w.x w.y w.crs_id (get_gk_crs_id tr w)).2) ∧
    (∀ i, 0 < i → i < w.incl_data.length →
      ((processing tr w).incl_data.getD i zeroStation).x_local =
        ((processing tr w).incl_data.getD (i - 1) zeroStation).x_local +
        (((processing tr w).incl_data.getD i zeroStation).md -
          ((processing tr w).incl_data.getD (i - 1) zeroStation).md) *
        Real.sin (radians ((((processing tr w).incl_data.getD (i - 1) zeroStation).incl +
          ((processing tr w).incl_data.getD i zeroStation).incl) / 2)) *
        Real.sin (radians (get_middle_angle
          (((processing tr w).incl_data.getD (i - 1) zeroStation).az)
          (((processing tr w).incl_data.getD i zeroStation).az))) ∧
      ((processing tr w).incl_data.getD i zeroStation).y_local =
        ((processing tr w).incl_data.getD (i - 1) zeroStation).y_local +
        (((processing tr w).incl_data.getD i zeroStation).md -
          ((processing tr w).incl_data.getD (i - 1) zeroStation).md) *
        Real.sin (radians ((((processing tr w).incl_data.getD (i - 1) zeroStation).incl +
          ((processing tr w).incl_data.getD i zeroStation).incl) / 2)) *
        Real.cos (radians (get_middle_angle
          (((processing tr w).incl_data.getD (i - 1) zeroStation).az)
          (((processing tr w).incl_data.getD i zeroStation).az))) ∧
      ((processing tr w).incl_data.getD i zeroStation).depth =
        ((processing tr w).incl_data.getD (i - 1) zeroStation).depth +
        (((processing tr w).incl_data.getD i zeroStation).md -
          ((processing tr w).incl_data.getD (i - 1) zeroStation).md) *
        Real.cos (radians ((((processing tr w).incl_data.getD (i - 1) zeroStation).incl +
          ((processing tr w).incl_data.getD i zeroStation).incl) / 2)) ∧
      ((processing tr w).incl_data.getD i zeroStation).x_global =
        ((processing tr w).incl_data.getD i zeroStation).x_local +
        ((processing tr w).incl_data.getD 0 zeroStation).x_global ∧
      ((processing tr w).incl_data.getD i zeroStation).y_global =
        ((processing tr w).incl_data.getD i zeroStation).y_local +
        ((processing tr w).incl_data.getD 0 zeroStation).y_global ∧
      ((processing tr w).incl_data.getD i zeroStation).altitude =
        w.altitude - ((processing tr w).incl_data.getD i zeroStation).depth) := by
  have hproc : (processing tr w).incl_data =
      calc_inclinometry_by_md tr w w.incl_data := by
    unfold processing
    rw [if_pos hmode]
  rw [hproc]
  cases hdata : w.incl_data with
  | nil =>
    refine ⟨rfl, ?_, ?_, ?_⟩
    · intro i hi
      simp at hi
    · intro hne
      exact absurd rfl hne
    · intro i hi0 hi
      simp at hi
  | cons a t =>
    set c := total_angle_correction tr w with hc
    set corr := fun r : Station => { r with az := get_result_azimuth (r.az + c) }
      with hcorr
    set head := transform_xy_coordinates tr w.x w.y w.crs_id (get_gk_crs_id tr w)
      with hhead
    set r0 : Station := { corr a with x_global := head.1, y_global := head.2 }
      with hr0
    have hcalc : calc_inclinometry_by_md tr w (a :: t) =
        r0 :: mdLoop head.1 head.2 w.altitude r0 (t.map corr) := by
      simp only [calc_inclinometry_by_md, List.map_cons]
    rw [hcalc]
    have hlen : (r0 :: mdLoop head.1 head.2 w.altitude r0 (t.map corr)).length =
        (a :: t).length := by
      simp [mdLoop_length]
    have hstep : ∀ i, 0 < i → i < (a :: t).length →
        (r0 :: mdLoop head.1 head.2 w.altitude r0 (t.map corr)).getD i zeroStation =
          mdStep head.1 head.2 w.altitude
            ((r0 :: mdLoop head.1 head.2 w.altitude r0 (t.map corr)).getD (i - 1)
              zeroStation)
            ((t.map corr).getD (i - 1) zeroStation) := by
      intro i hi0 hi
      obtain ⟨j, rfl⟩ : ∃ j, i = j + 1 := ⟨i - 1, (Nat.succ_pred_eq_of_pos hi0).symm⟩
      have hj : j < (t.map corr).length := by
        simp only [List.length_map]
        simpa using hi
      simp only [List.getD_cons_succ, Nat.add_sub_cancel]
      rw [mdLoop_getD head.1 head.2 w.altitude r0 (t.map corr) j hj]
      cases j with
      | zero => simp
      | succ k => simp
    refine ⟨hlen, ?_, ?_, ?_⟩
    · -- azimuth correction on every row
      intro i hi
      cases i with
      | zero =>
        simp only [List.getD_cons_zero]
      | succ j =>
        have hj : j < t.length := by simpa [hdata] using hi
        have hjm : j < (t.map corr).length := by simpa using hj
        have := hstep (j + 1) (Nat.succ_pos j) (by simpa using hj)
        rw [this, mdStep_az, Nat.add_sub_cancel,
          getD_map_lt corr t j zeroStation zeroStation hj]
        simp [hcorr]
    · -- row 0 global columns
      intro _
      exact ⟨rfl, rfl⟩
    · -- the station-to-station recurrence
      intro i hi0 hi
      have hi' : i < (a :: t).length := by simpa [hdata] using hi
      have hrec := hstep i hi0 hi'
      set out := r0 :: mdLoop head.1 head.2 w.altitude r0 (t.map corr) with hout
      set p := out.getD (i - 1) zeroStation with hp
      set q := (t.map corr).getD (i - 1) zeroStation with hq
      have h0 : out.getD 0 zeroStation = r0 := rfl
      have hxg0 : (out.getD 0 zeroStation).x_global = head.1 := rfl
      have hyg0 : (out.getD 0 zeroStation).y_global = head.2 := rfl
      rw [hrec]
      refine ⟨?_, ?_, ?_, ?_, ?_, ?_⟩
      · rw [mdStep_x_local, mdStep_md, mdStep_incl, mdStep_az, add_comm q.incl p.incl]
      · rw [mdStep_y_local, mdStep_md, mdStep_incl, mdStep_az, add_comm q.incl p.incl]
      · rw [mdStep_depth, mdStep_md, mdStep_incl, add_comm q.incl p.incl]
      · rw [mdStep_x_global, hxg0]
      · rw [mdStep_y_global, hyg0]
      · rw [mdStep_altitude]

/-- A concrete two-station survey-angle well. -/
def wellMd2 : Well :=
  { x := 0, y := 0, altitude := 100, crs_id := 4284, magnetic_declination := 10,
    processing_type := MD_TYPE,
    incl_data := [{ zeroStation with md := 0, altitude := 100 },
                  { zeroStation with md := 10, incl := 30, az := 40 }] }

/-- Witness for C1 at a concrete two-station well: its hypothesis holds and
row 1's azimuth carries the global correction. -/
theorem C1_md_integration_witness :
    wellMd2.processing_type = MD_TYPE ∧
      ((processing idTransform wellMd2).incl_data.getD 1 zeroStation).az =
        get_result_azimuth ((wellMd2.incl_data.getD 1 zeroStation).az +
          total_angle_correction idTransform wellMd2) := by
  have h := C1_md_integration idTransform wellMd2 rfl
  exact ⟨rfl, h.2.1 1 (by norm_num [wellMd2])⟩

/-! ## Loop lemmas for the displacement calculator -/

theorem processing_scalars (tr : Transform) (w : Well) :
    (processing tr w).x = w.x ∧ (processing tr w).y = w.y ∧
      (processing tr w).altitude = w.altitude ∧
      (processing tr w).crs_id = w.crs_id ∧
      (processing tr w).magnetic_declination = w.magnetic_declination ∧
      (processing tr w).processing_type = w.processing_type := by
  unfold processing
  split
  · exact ⟨rfl, rfl, rfl, rfl, rfl, rfl⟩
  · exact ⟨rfl, rfl, rfl, rfl, rfl, rfl⟩

theorem gk_zone_index_processing (tr : Transform) (w : Well) :
    get_gk_zone_index tr (processing tr w) = get_gk_zone_index tr w := by
  unfold get_gk_zone_index
  rw [(processing_scalars tr w).1, (processing_scalars tr w).2.1,
    (processing_scalars tr w).2.2.2.1]

theorem gk_crs_id_processing (tr : Transform) (w : Well) :
    get_gk_crs_id tr (processing tr w) = get_gk_crs_id tr w := by
  unfold get_gk_crs_id
  rw [gk_zone_index_processing]

theorem meridian_correction_processing (tr : Transform) (w : Well) :
    meridian_correction tr (processing tr w) = meridian_correction tr w := by
  unfold meridian_correction
  rw [(processing_scalars tr w).1, (processing_scalars tr w).2.1,
    (processing_scalars tr w).2.2.2.1, gk_zone_index_processing]

theorem xyzStep_incl (th xh yh alt : ℝ) (p c : Station) :
    (xyzStep th xh yh alt p c).incl = c.incl := rfl

theorem xyzStep_az (th xh yh alt : ℝ) (p c : Station) :
    (xyzStep th xh yh alt p c).az = c.az := rfl

theorem xyzStep_x_local (th xh yh alt : ℝ) (p c : Station) :
    (xyzStep th xh yh alt p c).x_local = c.x_local := rfl

theorem xyzStep_y_local (th xh yh alt : ℝ) (p c : Station) :
    (xyzStep th xh yh alt p c).y_local = c.y_local := rfl

theorem xyzStep_depth (th xh yh alt : ℝ) (p c : Station) :
    (xyzStep th xh yh alt p c).depth = c.depth := rfl

theorem xyzStep_md (th xh yh alt : ℝ) (p c : Station) :
    (xyzStep th xh yh alt p c).md =
      p.md + Real.sqrt ((c.x_local - p.x_local) ^ 2 + (c.y_local - p.y_local) ^ 2 +
        (c.depth - p.depth) ^ 2) := rfl

theorem xyzStep_x_global (th xh yh alt : ℝ) (p c : Station) :
    (xyzStep th xh yh alt p c).x_global =
      xh + (c.x_local * Real.cos th - c.y_local * Real.sin th) := rfl

theorem xyzStep_y_global (th xh yh alt : ℝ) (p c : Station) :
    (xyzStep th xh yh alt p c).y_global =
      yh + (c.x_local * Real.sin th + c.y_local * Real.cos th) := rfl

theorem xyzStep_altitude (th xh yh alt : ℝ) (p c : Station) :
    (xyzStep th xh yh alt p c).altitude = alt - c.depth := rfl

theorem xyzLoop_length (th xh yh alt : ℝ) (p : Station) (l : List Station) :
    (xyzLoop th xh yh alt p l).length = l.length := by
  induction l generalizing p with
  | nil => rfl
  | cons a t ih => simp [xyzLoop, ih]

theorem xyzLoop_getD (th xh yh alt : ℝ) (p : Station) (l : List Station) (i : ℕ)
    (h : i < l.length) :
    (xyzLoop th xh yh alt p l).getD i zeroStation =
      xyzStep th xh yh alt
        (if i = 0 then p else (xyzLoop th xh yh alt p l).getD (i - 1) zeroStation)
        (l.getD i zeroStation) := by
  induction l generalizing p i with
  | nil => simp at h
  | cons a t ih =>
    cases i with
    | zero => simp [xyzLoop]
    | succ j =>
      have hj : j < t.length := by simpa using h
      simp only [xyzLoop, List.getD_cons_succ]
      rw [ih (xyzStep th xh yh alt p a) j hj]
      cases j with
      | zero => simp
      | succ k => simp

theorem buildInitialStore_xy (altitude : ℝ) (data : List (ℝ × ℝ × ℝ)) :
    buildInitialStore altitude XY_TYPE data =
      storeFromBase altitude (data.map (fun t => { zeroStation with
        x_local := t.1, y_local := t.2.1, depth := t.2.2 })) := by
  have hfun : (fun t : ℝ × ℝ × ℝ =>
      if XY_TYPE = MD_TYPE then
        ({ zeroStation with md := t.1, incl := t.2.1, az := t.2.2 } : Station)
      else
        { zeroStation with x_local := t.1, y_local := t.2.1, depth := t.2.2 }) =
      fun t : ℝ × ℝ × ℝ =>
        { zeroStation with x_local := t.1, y_local := t.2.1, depth := t.2.2 } := by
    funext t
    rw [if_neg (by decide)]
  unfold buildInitialStore
  rw [hfun]

/-- C2: for a Well constructed in displacement mode, processing zero-shifts
every row's local columns by row 0's values (row 0 becomes the local origin
with measured depth 0), accumulates `md[i] = md[i-1] +
sqrt(dx^2 + dy^2 + dz^2)` over the zero-shifted differences, sets the global
columns to the transformed head plus the zero-shifted locals rotated by the
meridian correction (in radians), and sets `altitude[i] = head_altitude -
depth[i]` for every row. -/
theorem C2_xyz_integration (tr : Transform) (x y alt : ℝ) (crs : ℤ) (m : ℝ)
    (data : List (ℝ × ℝ × ℝ)) (w : Well)
    (hw : mkWell tr x y alt crs m XY_TYPE data = .ok w) :
    w.incl_data.length = data.length ∧
    (∀ i, i < data.length →
      (w.incl_data.getD i zeroStation).x_local =
        (data.getD i (0, 0, 0)).1 - (data.getD 0 (0, 0, 0)).1 ∧
      (w.incl_data.getD i zeroStation).y_local =
        (data.getD i (0, 0, 0)).2.1 - (data.getD 0 (0, 0, 0)).2.1 ∧
      (w.incl_data.getD i zeroStation).depth =
        (data.getD i (0, 0, 0)).2.2 - (data.getD 0 (0, 0, 0)).2.2) ∧
    (data ≠ [] →
      (w.incl_data.getD 0 zeroStation).md = 0 ∧
      (w.incl_data.getD 0 zeroStation).x_global =
        (transform_xy_coordinates tr x y crs (get_gk_crs_id tr w)).1 ∧
      (w.incl_data.getD 0 zeroStation).y_global =
        (transform_xy_coordinates tr x y crs (get_gk_crs_id tr w)).2) ∧
    (∀ i, 0 < i → i < data.length →
      (w.incl_data.getD i zeroStation).md =
        (w.incl_data.getD (i - 1) zeroStation).md +
          Real.sqrt (((w.incl_data.getD i zeroStation).x_local -
              (w.incl_data.getD (i - 1) zeroStation).x_local) ^ 2 +
            ((w.incl_data.getD i zeroStation).y_local -
              (w.incl_data.getD (i - 1) zeroStation).y_local) ^ 2 +
            ((w.incl_data.getD i zeroStation).depth -
              (w.incl_data.getD (i - 1) zeroStation).depth) ^ 2) ∧
      (w.incl_data.getD i zeroStation).x_global =
        (transform_xy_coordinates tr x y crs (get_gk_crs_id tr w)).1 +
          ((w.incl_data.getD i zeroStation).x_local *
              Real.cos (radians (meridian_correction tr w)) -
            (w.incl_data.getD i zeroStation).y_local *
              Real.sin (radians (meridian_correction tr w))) ∧
      (w.incl_data.getD i zeroStation).y_global =
        (transform_xy_coordinates tr x y crs (get_gk_crs_id tr w)).2 +
          ((w.incl_data.getD i zeroStation).x_local *
              Real.sin (radians (meridian_correction tr w)) +
            (w.incl_data.getD i zeroStation).y_local *
              Real.cos (radians (meridian_correction tr w)))) ∧
    (∀ i, i < data.length →
      (w.incl_data.getD i zeroStation).altitude =
        alt - (w.incl_data.getD i zeroStation).depth) := by
  -- extract the constructed well
  unfold mkWell at hw
  rw [if_pos (Or.inr rfl), if_neg (by decide : ¬(XY_TYPE = MD_TYPE))] at hw
  cases data with
  | nil =>
    rw [show buildInitialStore alt XY_TYPE [] = .error .indexError from rfl] at hw
    simp at hw
  | cons d0 ds =>
    set fXY := fun t : ℝ × ℝ × ℝ =>
      ({ zeroStation with x_local := t.1, y_local := t.2.1, depth := t.2.2 } : Station)
      with hfXY
    set a : Station := { fXY d0 with altitude := alt } with ha
    have hb : buildInitialStore alt XY_TYPE (d0 :: ds) =
        .ok (a :: ds.map fXY) := by
      rw [buildInitialStore_xy]
      rfl
    rw [hb] at hw
    have hw' : w = processing tr
        { x := x, y := y, altitude := alt, crs_id := crs,
          magnetic_declination := 0, processing_type := XY_TYPE,
          incl_data := a :: ds.map fXY } :=
      (Except.ok.inj hw).symm
    subst hw'
    clear hw
    rw [gk_crs_id_processing, meridian_correction_processing]
    set w0 : Well :=
      { x := x, y := y, altitude := alt, crs_id := crs, magnetic_declination := 0,
        processing_type := XY_TYPE, incl_data := a :: ds.map fXY } with hw0
    have hproc : (processing tr w0).incl_data =
        calc_inclinometry_by_xyz tr w0 w0.incl_data := by
      unfold processing
      rw [if_neg (by decide : ¬(XY_TYPE = MD_TYPE))]
    rw [hproc]
    rw [show w0.incl_data = a :: ds.map fXY from rfl]
    set head := transform_xy_coordinates tr x y crs (get_gk_crs_id tr w0) with hhd
    set th := radians (meridian_correction tr w0) with hth
    set shift := fun r : Station =>
      ({ r with
          x_local := r.x_local - a.x_local
          y_local := r.y_local - a.y_local
          depth := r.depth - a.depth } : Station) with hshift
    have hcalc : calc_inclinometry_by_xyz tr w0 (a :: ds.map fXY) =
        ({ shift a with x_global := head.1, y_global := head.2 } : Station) ::
          xyzLoop th head.1 head.2 w0.altitude
            ({ shift a with x_global := head.1, y_global := head.2 } : Station)
            ((ds.map fXY).map shift) := by
      simp only [calc_inclinometry_by_xyz]
    rw [hcalc]
    set r0 : Station := { shift a with x_global := head.1, y_global := head.2 }
      with hr0
    set rest := (ds.map fXY).map shift with hrest
    have hrestlen : rest.length = ds.length := by
      simp [hrest]
    have hlen : (r0 :: xyzLoop th head.1 head.2 w0.altitude r0 rest).length =
        (d0 :: ds).length := by
      simp [xyzLoop_length, hrestlen]
    have hstep : ∀ i, 0 < i → i < (d0 :: ds).length →
        (r0 :: xyzLoop th head.1 head.2 w0.altitude r0 rest).getD i zeroStation =
          xyzStep th head.1 head.2 w0.altitude
            ((r0 :: xyzLoop th head.1 head.2 w0.altitude r0 rest).getD (i - 1)
              zeroStation)
            (rest.getD (i - 1) zeroStation) := by
      intro i hi0 hi
      obtain ⟨j, rfl⟩ : ∃ j, i = j + 1 := ⟨i - 1, (Nat.succ_pred_eq_of_pos hi0).symm⟩
      have hj : j < rest.length := by
        rw [hrestlen]
        simpa using hi
      simp only [List.getD_cons_succ, Nat.add_sub_cancel]
      rw [xyzLoop_getD th head.1 head.2 w0.altitude r0 rest j hj]
      cases j with
      | zero => simp
      | succ k => simp
    have hrest_get : ∀ j, j < ds.length →
        rest.getD j zeroStation = shift (fXY (ds.getD j (0, 0, 0))) := by
      intro j hj
      rw [hrest, getD_map_lt shift (ds.map fXY) j zeroStation zeroStation
          (by simpa using hj),
        getD_map_lt fXY ds j (0, 0, 0) zeroStation hj]
    have hlocal : ∀ i, i < (d0 :: ds).length →
        ((r0 :: xyzLoop th head.1 head.2 w0.altitude r0 rest).getD i
            zeroStation).x_local = ((d0 :: ds).getD i (0, 0, 0)).1 - d0.1 ∧
        ((r0 :: xyzLoop th head.1 head.2 w0.altitude r0 rest).getD i
            zeroStation).y_local = ((d0 :: ds).getD i (0, 0, 0)).2.1 - d0.2.1 ∧
        ((r0 :: xyzLoop th head.1 head.2 w0.altitude r0 rest).getD i
            zeroStation).depth = ((d0 :: ds).getD i (0, 0, 0)).2.2 - d0.2.2 := by
      intro i hi
      cases i with
      | zero => exact ⟨rfl, rfl, rfl⟩
      | succ j =>
        have hj : j < ds.length := by simpa using hi
        rw [hstep (j + 1) (Nat.succ_pos j) (by simpa using hj)]
        simp only [Nat.add_sub_cancel, List.getD_cons_succ, List.getD_cons_zero]
        rw [xyzStep_x_local, xyzStep_y_local, xyzStep_depth, hrest_get j hj]
        exact ⟨rfl, rfl, rfl⟩
    refine ⟨hlen, ?_, ?_, ?_, ?_⟩
    · -- zero-shifted locals
      intro i hi
      exact hlocal i (by simpa using hi)
    · -- row 0
      intro _
      exact ⟨rfl, rfl, rfl⟩
    · -- md accumulation and rotated globals
      intro i hi0 hi
      have hi' : i < (d0 :: ds).length := by simpa using hi
      have hrec := hstep i hi0 hi'
      rw [hrec]
      obtain ⟨j, rfl⟩ : ∃ j, i = j + 1 := ⟨i - 1, (Nat.succ_pred_eq_of_pos hi0).symm⟩
      have hj : j < ds.length := by simpa using hi'
      refine ⟨?_, ?_, ?_⟩
      · rw [xyzStep_md, xyzStep_x_local, xyzStep_y_local, xyzStep_depth,
          Nat.add_sub_cancel]
      · rw [xyzStep_x_global, xyzStep_x_local, xyzStep_y_local]
      · rw [xyzStep_y_global, xyzStep_x_local, xyzStep_y_local]
    · -- altitude of every row
      intro i hi
      cases i with
      | zero =>
        show r0.altitude = alt - r0.depth
        have h1 : r0.altitude = alt := rfl
        have h2 : r0.depth = a.depth - a.depth := rfl
        rw [h1, h2, sub_self, sub_zero]
      | succ j =>
        have hj : j < ds.length := by simpa using hi
        rw [hstep (j + 1) (Nat.succ_pos j) (by simpa using hj),
          xyzStep_altitude, xyzStep_depth]

/-- A concrete two-station displacement well: one step of `(3, 4, 0)`. -/
def xyzData345 : List (ℝ × ℝ × ℝ) := [(0, 0, 0), (3, 4, 0)]

/-- The well the constructor produces from that data. -/
noncomputable def wellXyz345 : Well :=
  processing idTransform
    { x := 0, y := 0, altitude := 100, crs_id := 4284, magnetic_declination := 0,
      processing_type := XY_TYPE,
      incl_data := [{ zeroStation with
                        x_local := 0
                        y_local := 0
                        depth := 0
                        altitude := 100 },
                    { zeroStation with
                        x_local := 3
                        y_local := 4
                        depth := 0 }] }

/-- Witness for C2: the hypothesis holds for the concrete displacement data
`[(0,0,0), (3,4,0)]`, and the theorem then yields `md[1] = 5` — the
straight-line distance of the single displacement step. -/
theorem C2_xyz_integration_witness :
    mkWell idTransform 0 0 100 4284 0 XY_TYPE xyzData345 = .ok wellXyz345 ∧
      (wellXyz345.incl_data.getD 1 zeroStation).md = 5 := by
  have hb : buildInitialStore 100 XY_TYPE xyzData345 =
      .ok [({ zeroStation with
                x_local := 0
                y_local := 0
                depth := 0
                altitude := 100 } : Station),
           { zeroStation with
                x_local := 3
                y_local := 4
                depth := 0 }] := by
    rw [show xyzData345 = [((0:ℝ), (0:ℝ), (0:ℝ)), ((3:ℝ), (4:ℝ), (0:ℝ))] from
      rfl, buildInitialStore_xy]
    rfl
  have hw : mkWell idTransform 0 0 100 4284 0 XY_TYPE xyzData345 =
      .ok wellXyz345 := by
    unfold mkWell wellXyz345
    rw [if_pos (Or.inr rfl), if_neg (by decide : ¬(XY_TYPE = MD_TYPE)), hb]
  have h := C2_xyz_integration idTransform 0 0 100 4284 0 xyzData345
    wellXyz345 hw
  refine ⟨hw, ?_⟩
  have hlen2 : xyzData345.length = 2 := by norm_num [xyzData345]
  obtain ⟨hx1, hy1, hz1⟩ := h.2.1 1 (by rw [hlen2]; norm_num)
  obtain ⟨hx0, hy0, hz0⟩ := h.2.1 0 (by rw [hlen2]; norm_num)
  have hmd0 := (h.2.2.1 (by unfold xyzData345; exact List.cons_ne_nil _ _)).1
  have hrec := (h.2.2.2.1 1 (by norm_num) (by rw [hlen2]; norm_num)).1
  have harg : ((wellXyz345.incl_data.getD 1 zeroStation).x_local -
        (wellXyz345.incl_data.getD 0 zeroStation).x_local) ^ 2 +
      ((wellXyz345.incl_data.getD 1 zeroStation).y_local -
        (wellXyz345.incl_data.getD 0 zeroStation).y_local) ^ 2 +
      ((wellXyz345.incl_data.getD 1 zeroStation).depth -
        (wellXyz345.incl_data.getD 0 zeroStation).depth) ^ 2 = 25 := by
    rw [hx1, hy1, hz1, hx0, hy0, hz0]
    norm_num [xyzData345]
  rw [hrec, Nat.sub_self 1, hmd0, harg, zero_add,
    show (25:ℝ) = 5 ^ 2 by norm_num, Real.sqrt_sq (by norm_num : (0:ℝ) ≤ 5)]

/-! ## The inclination export table (Core/exporting.py) -/

/-- One row of the exported inclination table: columns
`MD, Incl, Geo_Az, x_GK, y_GK, Vert_Depth, Altitude`. -/
structure ExportRow where
  md : ℝ
  incl : ℝ
  az : ℝ
  x_global : ℝ
  y_global : ℝ
  depth : ℝ
  altitude : ℝ

def zeroExportRow : ExportRow :=
  { md := 0, incl := 0, az := 0, x_global := 0, y_global := 0, depth := 0,
    altitude := 0 }

/-- The array built by `create_inclinometry_txt_file`: the seven export
columns of the trajectory store and, in survey-angle mode only, the azimuth
re-expressed as `normalize_azimuth(az - total_angle_correction +
magnetic_declination)`. -/
noncomputable def export_table (tr : Transform) (w : Well) : List ExportRow :=
  let base := w.incl_data.map (fun r =>
    ({ md := r.md, incl := r.incl, az := r.az, x_global := r.x_global,
       y_global := r.y_global, depth := r.depth,
       altitude := r.altitude } : ExportRow))
  if w.processing_type = MD_TYPE then
    base.map (fun e =>
      { e with
          az := get_result_azimuth
            (e.az - total_angle_correction tr w + w.magnetic_declination) })
  else base

/-- C4: in survey-angle mode every exported row's azimuth equals
`normalize_azimuth(internal_az - total_angle_correction +
magnetic_declination)` where `internal_az` is the already-corrected azimuth
stored in the trajectory table; in displacement mode the azimuth column is
exported unchanged. -/
theorem C4_export_azimuth (tr : Transform) (w : Well) (i : ℕ)
    (hi : i < w.incl_data.length) :
    (w.processing_type = MD_TYPE →
      ((export_table tr w).getD i zeroExportRow).az =
        get_result_azimuth ((w.incl_data.getD i zeroStation).az -
          total_angle_correction tr w + w.magnetic_declination)) ∧
    (w.processing_type ≠ MD_TYPE →
      ((export_table tr w).getD i zeroExportRow).az =
        (w.incl_data.getD i zeroStation).az) := by
  constructor
  · intro hmode
    unfold export_table
    rw [if_pos hmode]
    rw [getD_map_lt _ _ i zeroExportRow zeroExportRow (by simpa using hi)]
    rw [getD_map_lt _ _ i zeroStation zeroExportRow hi]
  · intro hmode
    unfold export_table
    rw [if_neg hmode]
    rw [getD_map_lt _ _ i zeroStation zeroExportRow hi]

/-- Witness for C4 at the concrete survey-angle well: both hypotheses of the
theorem are discharged at row 0. -/
theorem C4_export_azimuth_witness :
    wellMd2.incl_data.length = 2 ∧
      ((wellMd2.processing_type = MD_TYPE →
        ((export_table idTransform wellMd2).getD 0 zeroExportRow).az =
          get_result_azimuth ((wellMd2.incl_data.getD 0 zeroStation).az -
            total_angle_correction idTransform wellMd2 +
            wellMd2.magnetic_declination)) ∧
      (wellMd2.processing_type ≠ MD_TYPE →
        ((export_table idTransform wellMd2).getD 0 zeroExportRow).az =
          (wellMd2.incl_data.getD 0 zeroStation).az)) := by
  have hlen : wellMd2.incl_data.length = 2 := by norm_num [wellMd2]
  exact ⟨hlen, C4_export_azimuth idTransform wellMd2 0 (by rw [hlen]; norm_num)⟩

/-! ## Measured-depth interpolation (Core/inclinometry.py, `interpolate_data`) -/

/-- The flat nine-column view of a station row, in `ColumnIndexes` order. -/
def stationVec (r : Station) : List ℝ :=
  [r.md, r.incl, r.az, r.x_local, r.y_local, r.depth, r.altitude,
   r.x_global, r.y_global]

/-- The five projection columns `[md, x_global, y_global, depth, altitude]`. -/
def projColumns (r : Station) : List ℝ :=
  [r.md, r.x_global, r.y_global, r.depth, r.altitude]

/-- Model of `np.min` over a column (the source faults on an empty column; the model
returns 0 there, and every theorem below assumes a nonempty store). -/
noncomputable def listMin : List ℝ → ℝ
  | [] => 0
  | [v] => v
  | v :: u :: rest => min v (listMin (u :: rest))

/-- Model of `np.max` over a column. -/
noncomputable def listMax : List ℝ → ℝ
  | [] => 0
  | [v] => v
  | v :: u :: rest => max v (listMax (u :: rest))

/-- The index scan of `Well.interpolate_data`: `top_index` tracks the last row
seen strictly below `md_value`; the loop breaks with `(i, i)` at the first row
equal to it and with `(top_index, i)` at the first row above it; it returns
`(top_index, 0)` if it runs off the end. -/
noncomputable def findBracketAux (v : ℝ) : List Station → ℕ → ℕ → ℕ × ℕ
  | [], _, top => (top, 0)
  | r :: rest, i, top =>
      if r.md < v then findBracketAux v rest (i + 1) i
      else if r.md = v then (i, i)
      else (top, i)

/-- Model of `Well.interpolate_data` (Core revision): the empty array outside
`[min md, max md]`; the five projection columns of row `top_index` when
`top_index = bottom_index` (exact match); otherwise the full nine-column
linear interpolation `linear_coeff * diff_arr + arr[top_index]` — note the
Core revision does NOT restrict this branch to the projection columns. -/
noncomputable def interpolate_data (w : Well) (md_value : ℝ) : List ℝ :=
  let mds := w.incl_data.map Station.md
  if ¬(listMin mds ≤ md_value ∧ md_value ≤ listMax mds) then []
  else
    let tb := findBracketAux md_value w.incl_data 0 0
    if tb.1 = tb.2 then projColumns (w.incl_data.getD tb.1 zeroStation)
    else
      let rt := w.incl_data.getD tb.1 zeroStation
      let rb := w.incl_data.getD tb.2 zeroStation
      List.zipWith
        (fun vb vt => (md_value - rt.md) / (rb.md - rt.md) * (vb - vt) + vt)
        (stationVec rb) (stationVec rt)

theorem listMin_le (l : List ℝ) : ∀ x ∈ l, listMin l ≤ x := by
  induction l with
  | nil =>
    intro x hx
    simp at hx
  | cons a t ih =>
    intro x hx
    cases t with
    | nil =>
      rw [List.mem_singleton] at hx
      subst hx
      exact le_of_eq rfl
    | cons b u =>
      rw [List.mem_cons] at hx
      rcases hx with rfl | hx
      · exact min_le_left _ _
      · exact le_trans (min_le_right _ _) (ih x hx)

theorem le_listMax (l : List ℝ) : ∀ x ∈ l, x ≤ listMax l := by
  induction l with
  | nil =>
    intro x hx
    simp at hx
  | cons a t ih =>
    intro x hx
    cases t with
    | nil =>
      rw [List.mem_singleton] at hx
      subst hx
      exact le_of_eq rfl
    | cons b u =>
      rw [List.mem_cons] at hx
      rcases hx with rfl | hx
      · exact le_max_left _ _
      · exact le_trans (ih x hx) (le_max_right _ _)

theorem listMin_mem (l : List ℝ) (h : l ≠ []) : listMin l ∈ l := by
  induction l with
  | nil => exact absurd rfl h
  | cons a t ih =>
    cases t with
    | nil => exact List.mem_singleton.mpr rfl
    | cons b u =>
      rcases min_cases a (listMin (b :: u)) with ⟨heq, _⟩ | ⟨heq, _⟩
      · show min a (listMin (b :: u)) ∈ _
        rw [heq]
        exact List.mem_cons_self a _
      · show min a (listMin (b :: u)) ∈ _
        rw [heq]
        exact List.mem_cons_of_mem a (ih (List.cons_ne_nil b u))

theorem listMax_mem (l : List ℝ) (h : l ≠ []) : listMax l ∈ l := by
  induction l with
  | nil => exact absurd rfl h
  | cons a t ih =>
    cases t with
    | nil => exact List.mem_singleton.mpr rfl
    | cons b u =>
      rcases max_cases a (listMax (b :: u)) with ⟨heq, _⟩ | ⟨heq, _⟩
      · show max a (listMax (b :: u)) ∈ _
        rw [heq]
        exact List.mem_cons_self a _
      · show max a (listMax (b :: u)) ∈ _
        rw [heq]
        exact List.mem_cons_of_mem a (ih (List.cons_ne_nil b u))

/-- In a table sorted by measured depth that contains a station at `v`, the
rows before the first such station lie strictly below `v`. -/
theorem exists_split_eq (v : ℝ) (l : List Station)
    (hp : l.Pairwise (fun a b => a.md ≤ b.md)) (hex : ∃ r ∈ l, r.md = v) :
    ∃ pre r post, l = pre ++ r :: post ∧ (∀ s ∈ pre, s.md < v) ∧ r.md = v := by
  induction l with
  | nil =>
    obtain ⟨r, hr, _⟩ := hex
    simp at hr
  | cons a t ih =>
    by_cases ha : a.md = v
    · exact ⟨[], a, t, rfl, by simp, ha⟩
    · obtain ⟨r, hr, hrv⟩ := hex
      rw [List.mem_cons] at hr
      rcases hr with rfl | hr
      · exact absurd hrv ha
      · have hcons := List.pairwise_cons.mp hp
        have halt : a.md < v :=
          lt_of_le_of_ne (hrv ▸ hcons.1 r hr) ha
        obtain ⟨pre, r', post, heq, hpre, hr'⟩ := ih hcons.2 ⟨r, hr, hrv⟩
        refine ⟨a :: pre, r', post, by rw [heq, List.cons_append], ?_, hr'⟩
        intro s hs
        rw [List.mem_cons] at hs
        rcases hs with rfl | hs
        · exact halt
        · exact hpre s hs

/-- In a table whose head lies strictly below `v`, that contains no station at
`v` but contains one above it, some nonempty strictly-below prefix is followed
by a station strictly above `v`. -/
theorem exists_split_bracket (v : ℝ) :
    ∀ (t : List Station) (a : Station), a.md < v →
      (∀ r ∈ t, r.md ≠ v) → (∃ r ∈ t, v < r.md) →
      ∃ pre r post, a :: t = pre ++ r :: post ∧ pre ≠ [] ∧
        (∀ s ∈ pre, s.md < v) ∧ v < r.md := by
  intro t
  induction t with
  | nil =>
    intro a _ _ hex
    obtain ⟨r, hr, _⟩ := hex
    simp at hr
  | cons b u ih =>
    intro a ha hne hex
    rcases lt_trichotomy b.md v with hb | hb | hb
    · have hex' : ∃ r ∈ u, v < r.md := by
        obtain ⟨r, hr, hrv⟩ := hex
        rw [List.mem_cons] at hr
        rcases hr with rfl | hr
        · exact absurd hrv (not_lt.mpr (le_of_lt hb))
        · exact ⟨r, hr, hrv⟩
      obtain ⟨pre, r', post, heq, hpre_ne, hpre, hr'⟩ :=
        ih b hb (fun r hr => hne r (List.mem_cons_of_mem b hr)) hex'
      refine ⟨a :: pre, r', post, ?_, List.cons_ne_nil a pre, ?_, hr'⟩
      · rw [List.cons_append]
        rw [← heq]
      · intro s hs
        rw [List.mem_cons] at hs
        rcases hs with rfl | hs
        · exact ha
        · exact hpre s hs
    · exact absurd hb (hne b (List.mem_cons_self b u))
    · exact ⟨[a], b, u, rfl, List.cons_ne_nil a [], by
        intro s hs
        rw [List.mem_singleton] at hs
        subst hs
        exact ha, hb⟩

/-- The index scan over a strictly-below prefix followed by an exact match
returns the exact pair. -/
theorem findBracketAux_exact (v : ℝ) :
    ∀ (pre : List Station) (r : Station) (post : List Station) (i top : ℕ),
      (∀ s ∈ pre, s.md < v) → r.md = v →
      findBracketAux v (pre ++ r :: post) i top =
        (i + pre.length, i + pre.length) := by
  intro pre
  induction pre with
  | nil =>
    intro r post i top _ hr
    show findBracketAux v (r :: post) i top = _
    rw [findBracketAux]
    rw [if_neg (by rw [hr]; exact lt_irrefl v), if_pos hr]
    simp
  | cons s pre' ih =>
    intro r post i top hpre hr
    show findBracketAux v (s :: (pre' ++ r :: post)) i top = _
    rw [findBracketAux]
    rw [if_pos (hpre s (List.mem_cons_self s pre'))]
    rw [ih r post (i + 1) i (fun q hq => hpre q (List.mem_cons_of_mem s hq)) hr]
    simp only [List.length_cons, Prod.mk.injEq]
    omega

/-- The index scan over a nonempty strictly-below prefix followed by a row
strictly above `v` returns the adjacent bracketing pair. -/
theorem findBracketAux_gap (v : ℝ) :
    ∀ (pre : List Station) (r : Station) (post : List Station) (i top : ℕ),
      pre ≠ [] → (∀ s ∈ pre, s.md < v) → v < r.md →
      findBracketAux v (pre ++ r :: post) i top =
        (i + pre.length - 1, i + pre.length) := by
  intro pre
  induction pre with
  | nil =>
    intro r post i top hne _ _
    exact absurd rfl hne
  | cons s pre' ih =>
    intro r post i top _ hpre hgt
    show findBracketAux v (s :: (pre' ++ r :: post)) i top = _
    rw [findBracketAux]
    rw [if_pos (hpre s (List.mem_cons_self s pre'))]
    cases pre' with
    | nil =>
      show findBracketAux v (r :: post) (i + 1) i = _
      rw [findBracketAux]
      rw [if_neg (not_lt.mpr (le_of_lt hgt)), if_neg (ne_of_gt hgt)]
      simp only [List.length_cons, List.length_nil, Prod.mk.injEq]
      exact ⟨by omega, trivial⟩
    | cons s2 pre'' =>
      rw [ih r post (i + 1) i (List.cons_ne_nil s2 pre'')
        (fun q hq => hpre q (List.mem_cons_of_mem s hq)) hgt]
      simp only [List.length_cons, Prod.mk.injEq]
      omega

theorem getD_append_self {α : Type} (pre : List α) (r : α) (post : List α)
    (d : α) : (pre ++ r :: post).getD pre.length d = r := by
  induction pre with
  | nil => rfl
  | cons a t ih => simpa using ih

theorem getD_append_lt {α : Type} (pre rest : List α) (d : α) :
    ∀ j, j < pre.length → (pre ++ rest).getD j d = pre.getD j d := by
  induction pre with
  | nil =>
    intro j hj
    simp at hj
  | cons a t ih =>
    intro j hj
    cases j with
    | zero => rfl
    | succ k =>
      have hk : k < t.length := by simpa using hj
      simpa using ih k hk

theorem getD_mem {α : Type} (l : List α) (d : α) (j : ℕ) (hj : j < l.length) :
    l.getD j d ∈ l := by
  rw [List.getD_eq_getElem l d hj]
  exact List.getElem_mem hj

/-- C3 (amended): for a sorted nonempty store and `md_value` within
`[min md, max md]`, if some station sits exactly at `md_value` the result is
that station's five projection columns; otherwise the result is the full
nine-column row `top_row + (md_value - md[top])/(md[bottom]-md[top]) *
(bottom_row - top_row)` over the adjacent bracketing pair — not restricted to
the five projection columns. -/
theorem C3_interpolation_amended (w : Well) (v : ℝ)
    (hsort : w.incl_data.Pairwise (fun a b => a.md ≤ b.md))
    (hne : w.incl_data ≠ [])
    (hlo : listMin (w.incl_data.map Station.md) ≤ v)
    (hhi : v ≤ listMax (w.incl_data.map Station.md)) :
    ((∃ r ∈ w.incl_data, r.md = v) →
      ∃ k, k < w.incl_data.length ∧
        (w.incl_data.getD k zeroStation).md = v ∧
        (∀ j, j < k → (w.incl_data.getD j zeroStation).md < v) ∧
        interpolate_data w v = projColumns (w.incl_data.getD k zeroStation)) ∧
    ((∀ r ∈ w.incl_data, r.md ≠ v) →
      ∃ n, n + 1 < w.incl_data.length ∧
        (w.incl_data.getD n zeroStation).md < v ∧
        v < (w.incl_data.getD (n + 1) zeroStation).md ∧
        interpolate_data w v =
          List.zipWith (fun vb vt =>
            (v - (w.incl_data.getD n zeroStation).md) /
              ((w.incl_data.getD (n + 1) zeroStation).md -
                (w.incl_data.getD n zeroStation).md) * (vb - vt) + vt)
            (stationVec (w.incl_data.getD (n + 1) zeroStation))
            (stationVec (w.incl_data.getD n zeroStation))) := by
  constructor
  · -- exact-match branch
    intro hex
    obtain ⟨pre, r, post, heq, hpre, hrv⟩ :=
      exists_split_eq v w.incl_data hsort hex
    have hscan : findBracketAux v w.incl_data 0 0 = (pre.length, pre.length) := by
      rw [heq, findBracketAux_exact v pre r post 0 0 hpre hrv]
      simp
    have hk_lt : pre.length < w.incl_data.length := by
      rw [heq, List.length_append, List.length_cons]
      omega
    have hgetk : w.incl_data.getD pre.length zeroStation = r := by
      rw [heq, getD_append_self]
    refine ⟨pre.length, hk_lt, by rw [hgetk]; exact hrv, ?_, ?_⟩
    · intro j hj
      have hj' : (w.incl_data.getD j zeroStation) = pre.getD j zeroStation := by
        rw [heq, getD_append_lt pre (r :: post) zeroStation j hj]
      rw [hj']
      exact hpre _ (getD_mem pre zeroStation j hj)
    · have hrange : ¬¬(listMin (w.incl_data.map Station.md) ≤ v ∧
          v ≤ listMax (w.incl_data.map Station.md)) := not_not_intro ⟨hlo, hhi⟩
      unfold interpolate_data
      rw [if_neg hrange]
      simp only [hscan]
      simp
  · -- strict-bracket branch
    intro hnone
    have hrange : ¬¬(listMin (w.incl_data.map Station.md) ≤ v ∧
        v ≤ listMax (w.incl_data.map Station.md)) := not_not_intro ⟨hlo, hhi⟩
    obtain ⟨a, t, heq0⟩ : ∃ a t, w.incl_data = a :: t := by
      cases hd : w.incl_data with
      | nil => exact absurd hd hne
      | cons a t => exact ⟨a, t, rfl⟩
    rw [heq0] at hsort hlo hhi hnone
    rw [heq0]
    have hhead_le : ∀ x ∈ a :: t, a.md ≤ x.md := by
      intro x hx
      rw [List.mem_cons] at hx
      rcases hx with rfl | hx
      · exact le_rfl
      · exact (List.pairwise_cons.mp hsort).1 x hx
    have hmds_ne : (a :: t).map Station.md ≠ [] := by simp
    have halt : a.md < v := by
      obtain ⟨r0, hr0, hr0v⟩ :=
        List.mem_map.mp (listMin_mem _ hmds_ne)
      have h1 : a.md ≤ listMin ((a :: t).map Station.md) := by
        rw [← hr0v]
        exact hhead_le r0 hr0
      exact lt_of_le_of_ne (le_trans h1 hlo) (hnone a (List.mem_cons_self a t))
    have hhiex : ∃ r ∈ t, v < r.md := by
      obtain ⟨rM, hrM, hrMv⟩ :=
        List.mem_map.mp (listMax_mem _ hmds_ne)
      have hv_lt : v < rM.md :=
        lt_of_le_of_ne (hrMv ▸ hhi) (fun hveq => hnone rM hrM hveq.symm)
      rw [List.mem_cons] at hrM
      rcases hrM with rfl | hrM
      · exact absurd hv_lt (not_lt.mpr (le_of_lt halt))
      · exact ⟨rM, hrM, hv_lt⟩
    obtain ⟨pre, r, post, heq, hpre_ne, hpre, hgt⟩ :=
      exists_split_bracket v t a halt
        (fun q hq => hnone q (List.mem_cons_of_mem a hq)) hhiex
    obtain ⟨n, hlen_pre⟩ : ∃ n, pre.length = n + 1 := by
      cases hp : pre with
      | nil => exact absurd hp hpre_ne
      | cons s u => exact ⟨u.length, by simp⟩
    have hscan : findBracketAux v (a :: t) 0 0 = (n, n + 1) := by
      rw [heq, findBracketAux_gap v pre r post 0 0 hpre_ne hpre hgt, hlen_pre]
      simp
    have hn1_lt : n + 1 < (a :: t).length := by
      rw [heq, List.length_append, List.length_cons, hlen_pre]
      omega
    have hgetn1 : (a :: t).getD (n + 1) zeroStation = r := by
      rw [heq, ← hlen_pre, getD_append_self]
    have hgetn_lt : ((a :: t).getD n zeroStation).md < v := by
      have hn_pre : n < pre.length := by omega
      have : (a :: t).getD n zeroStation = pre.getD n zeroStation := by
        rw [heq, getD_append_lt pre (r :: post) zeroStation n hn_pre]
      rw [this]
      exact hpre _ (getD_mem pre zeroStation n hn_pre)
    refine ⟨n, hn1_lt, hgetn_lt, by rw [hgetn1]; exact hgt, ?_⟩
    have hrange' : ¬¬(listMin ((a :: t).map Station.md) ≤ v ∧
        v ≤ listMax ((a :: t).map Station.md)) := not_not_intro ⟨hlo, hhi⟩
    unfold interpolate_data
    rw [heq0, if_neg hrange']
    simp only [hscan]
    rw [if_neg (show ¬((n, n + 1).1 = (n, n + 1).2) from
      Ne.symm (Nat.succ_ne_self n))]

/-- A concrete processed two-station store with measured depths 0 and 10. -/
def wellTwo : Well :=
  { x := 0, y := 0, altitude := 0, crs_id := 4284, magnetic_declination := 0,
    processing_type := MD_TYPE,
    incl_data := [{ zeroStation with md := 0 },
                  { zeroStation with md := 10 }] }

theorem wellTwo_scan : findBracketAux 5 wellTwo.incl_data 0 0 = (0, 1) := by
  show findBracketAux 5 ({ zeroStation with md := 0 } ::
    { zeroStation with md := 10 } :: []) 0 0 = (0, 1)
  rw [findBracketAux]
  rw [if_pos (by norm_num : ({ zeroStation with md := (0:ℝ) } : Station).md < 5)]
  rw [findBracketAux]
  rw [if_neg (by norm_num : ¬(({ zeroStation with md := (10:ℝ) } : Station).md < 5)),
    if_neg (by norm_num : ¬(({ zeroStation with md := (10:ℝ) } : Station).md = 5))]

theorem wellTwo_listMin : listMin (wellTwo.incl_data.map Station.md) = 0 := by
  show listMin [(0:ℝ), 10] = 0
  rw [listMin, listMin]
  exact min_eq_left (by norm_num)

theorem wellTwo_listMax : listMax (wellTwo.incl_data.map Station.md) = 10 := by
  show listMax [(0:ℝ), 10] = 10
  rw [listMax, listMax]
  exact max_eq_right (by norm_num)

theorem wellTwo_range : ¬¬(listMin (wellTwo.incl_data.map Station.md) ≤ 5 ∧
    (5:ℝ) ≤ listMax (wellTwo.incl_data.map Station.md)) := by
  rw [wellTwo_listMin, wellTwo_listMax]
  norm_num

/-- The interpolation of `wellTwo` strictly between the stations yields the
full nine-column row. -/
theorem interp_wellTwo_five_len : (interpolate_data wellTwo 5).length = 9 := by
  unfold interpolate_data
  rw [if_neg wellTwo_range]
  simp only [wellTwo_scan]
  rw [if_neg (by norm_num : ¬(((0:ℕ), (1:ℕ)).1 = ((0:ℕ), (1:ℕ)).2))]
  simp [stationVec]

/-- C3 counterexample: interpolating `wellTwo` at the in-range, non-station
value 5 returns a nine-element row, while the claim says the result is
restricted to the five projection columns. -/
theorem C3_interpolation_counterexample :
    (interpolate_data wellTwo 5).length = 9 ∧ (9 : ℕ) ≠ 5 :=
  ⟨interp_wellTwo_five_len, by decide⟩

/-- Witness for C3's amended claim: the hypotheses hold for `wellTwo` at
depth 5 and the strict-bracket branch produces the adjacent bracketing pair. -/
theorem C3_interpolation_amended_witness :
    wellTwo.incl_data.Pairwise (fun a b => a.md ≤ b.md) ∧
    wellTwo.incl_data ≠ [] ∧
    listMin (wellTwo.incl_data.map Station.md) ≤ 5 ∧
    (5:ℝ) ≤ listMax (wellTwo.incl_data.map Station.md) ∧
    (∃ n, n + 1 < wellTwo.incl_data.length ∧
      (wellTwo.incl_data.getD n zeroStation).md < 5 ∧
      (5:ℝ) < (wellTwo.incl_data.getD (n + 1) zeroStation).md) := by
  have hsort : wellTwo.incl_data.Pairwise (fun a b => a.md ≤ b.md) := by
    unfold wellTwo
    refine List.pairwise_cons.mpr ⟨?_, List.pairwise_singleton _ _⟩
    intro b hb
    rw [List.mem_singleton] at hb
    subst hb
    norm_num
  have hne : wellTwo.incl_data ≠ [] := by
    unfold wellTwo
    exact List.cons_ne_nil _ _
  have hlo : listMin (wellTwo.incl_data.map Station.md) ≤ 5 := by
    rw [wellTwo_listMin]
    norm_num
  have hhi : (5:ℝ) ≤ listMax (wellTwo.incl_data.map Station.md) := by
    rw [wellTwo_listMax]
    norm_num
  have hnone : ∀ r ∈ wellTwo.incl_data, r.md ≠ 5 := by
    intro r hr
    unfold wellTwo at hr
    rw [List.mem_cons, List.mem_singleton] at hr
    rcases hr with rfl | rfl
    · norm_num
    · norm_num
  obtain ⟨n, h1, h2, h3, _⟩ :=
    (C3_interpolation_amended wellTwo 5 hsort hne hlo hhi).2 hnone
  exact ⟨hsort, hne, hlo, hhi, n, h1, h2, h3⟩

/-! ## Point-interpolation export (Core/exporting.py,
`create_points_interpolation_file`) and the numpy semantics it relies on -/

/-- numpy truthiness of `if interpolation_data:`: an empty array is falsy, a
one-element array is its element's truth, and any larger array raises
ValueError ("truth value of an array with more than one element is
ambiguous"). -/
noncomputable def npTruthy : List ℝ → Except PyExc Bool
  | [] => .ok false
  | [v] => .ok (if v = 0 then false else true)
  | _ :: _ :: _ => .error .valueError

/-- numpy fancy indexing `interpolation_data[column_indexes]` with
`column_indexes = [md, x_global, y_global, depth, altitude] = [0, 7, 8, 5, 6]`;
IndexError when an index is out of bounds. -/
noncomputable def selectProjCols (d : List ℝ) : Except PyExc (List ℝ) :=
  match d.get? 0, d.get? 7, d.get? 8, d.get? 5, d.get? 6 with
  | some v0, some v7, some v8, some v5, some v6 => .ok [v0, v7, v8, v5, v6]
  | _, _, _, _, _ => .error .indexError

/-- The row-collection loop of `create_points_interpolation_file`: for each
`(label, md)` pair interpolate, test `if interpolation_data:`, skip a falsy
result, and otherwise keep the selected projection columns; an exception
aborts the whole export. -/
noncomputable def create_points_interpolation_rows (w : Well) :
    List (String × ℝ) → Except PyExc (List (String × List ℝ))
  | [] => .ok []
  | (name, md_value) :: rest =>
      match npTruthy (interpolate_data w md_value) with
      | .error e => .error e
      | .ok false => create_points_interpolation_rows w rest
      | .ok true =>
          match selectProjCols (interpolate_data w md_value) with
          | .error e => .error e
          | .ok cols =>
              match create_points_interpolation_rows w rest with
              | .error e => .error e
              | .ok tail => .ok ((name, cols) :: tail)

theorem npTruthy_error_of_two_le (d : List ℝ) (h : 2 ≤ d.length) :
    npTruthy d = .error .valueError := by
  cases d with
  | nil => simp at h
  | cons x t =>
    cases t with
    | nil => simp at h
    | cons y u => rfl

theorem create_points_rows_error (w : Well) (name : String) (mdv : ℝ)
    (rest : List (String × ℝ))
    (h : npTruthy (interpolate_data w mdv) = .error .valueError) :
    create_points_interpolation_rows w ((name, mdv) :: rest) =
      .error .valueError := by
  unfold create_points_interpolation_rows
  rw [h]

def pLabel : String := "P"

/-- C7: the first half of the claim holds — out-of-range interpolation returns
the empty result and no exception — but the point-interpolation export does
not emit a row for an in-range entry: the numpy truthiness test
`if interpolation_data:` on the multi-element interpolation result raises
ValueError and aborts the whole export. -/
theorem C7_points_export_value_error :
    interpolate_data wellTwo 20 = [] ∧
      create_points_interpolation_rows wellTwo [(pLabel, 5)] =
        .error .valueError := by
  constructor
  · unfold interpolate_data
    rw [if_pos]
    rw [wellTwo_listMax]
    intro hcon
    have := hcon.2
    norm_num at this
  · exact create_points_rows_error wellTwo pLabel 5 []
      (npTruthy_error_of_two_le _ (by rw [interp_wellTwo_five_len]; norm_num))

/-! ## The double processing pass of `InclinometryCalc.proc`
(inclinometry_calc.py) -/

theorem total_angle_correction_processing (tr : Transform) (w : Well) :
    total_angle_correction tr (processing tr w) = total_angle_correction tr w := by
  unfold total_angle_correction
  rw [meridian_correction_processing, (processing_scalars tr w).2.2.2.2.1]

theorem buildInitialStore_md (altitude : ℝ) (data : List (ℝ × ℝ × ℝ)) :
    buildInitialStore altitude MD_TYPE data =
      storeFromBase altitude (data.map (fun t => { zeroStation with
        md := t.1, incl := t.2.1, az := t.2.2 })) := by
  have hfun : (fun t : ℝ × ℝ × ℝ =>
      if MD_TYPE = MD_TYPE then
        ({ zeroStation with md := t.1, incl := t.2.1, az := t.2.2 } : Station)
      else
        { zeroStation with x_local := t.1, y_local := t.2.1, depth := t.2.2 }) =
      fun t : ℝ × ℝ × ℝ =>
        { zeroStation with md := t.1, incl := t.2.1, az := t.2.2 } := by
    funext t
    rw [if_pos rfl]
  unfold buildInitialStore
  rw [hfun]

/-- Row 0 of the survey-angle calculator carries the corrected azimuth. -/
theorem calc_md_getD0_az (tr : Transform) (w : Well) (rows : List Station)
    (h : rows ≠ []) :
    ((calc_inclinometry_by_md tr w rows).getD 0 zeroStation).az =
      get_result_azimuth ((rows.getD 0 zeroStation).az +
        total_angle_correction tr w) := by
  cases rows with
  | nil => exact absurd rfl h
  | cons a t =>
    simp only [calc_inclinometry_by_md, List.map_cons]
    rfl

/-- Model of `InclinometryCalc.proc`: constructs the Well — whose constructor already
runs `processing` — and then calls `well.processing()` again on it. -/
noncomputable def proc_well (tr : Transform) (x y altitude : ℝ) (crs_id : ℤ)
    (magnetic_declination : ℝ) (processing_type : String)
    (inclination_data : List (ℝ × ℝ × ℝ)) : Except PyExc Well :=
  Except.map (fun w => processing tr w)
    (mkWell tr x y altitude crs_id magnetic_declination processing_type
      inclination_data)

/-- The survey-angle well `proc` builds: head `(0, 0, 0)` in CRS 4284,
declination 90, stations at measured depths 0 and 10, vertical. -/
noncomputable def wellC6base : Well :=
  { x := 0, y := 0, altitude := 0, crs_id := 4284, magnetic_declination := 90,
    processing_type := MD_TYPE,
    incl_data := [{ zeroStation with md := 0 }, { zeroStation with md := 10 }] }

theorem wellC6base_build :
    buildInitialStore 0 MD_TYPE [((0:ℝ), (0:ℝ), (0:ℝ)), ((10:ℝ), (0:ℝ), (0:ℝ))] =
      .ok wellC6base.incl_data := by
  rw [buildInitialStore_md]
  rfl

noncomputable def wellC6 : Well := processing idTransform wellC6base

theorem wellC6base_meridian : meridian_correction idTransform wellC6base = 0 := by
  unfold meridian_correction transform_xy_coordinates
  rw [if_pos (by rfl : wellC6base.crs_id = PULKOVO1942_ID)]
  show ((0:ℝ) - _) * Real.sin (radians 0) = 0
  unfold radians
  rw [zero_mul, zero_div, Real.sin_zero, mul_zero]

theorem wellC6base_correction :
    total_angle_correction idTransform wellC6base = 90 := by
  unfold total_angle_correction
  rw [wellC6base_meridian]
  show (90:ℝ) - 0 = 90
  norm_num

theorem wellC6_store : wellC6.incl_data =
    calc_inclinometry_by_md idTransform wellC6base wellC6base.incl_data := by
  unfold wellC6 processing
  rw [if_pos (by rfl : wellC6base.processing_type = MD_TYPE)]

theorem wellC6_az0 : (wellC6.incl_data.getD 0 zeroStation).az = 90 := by
  rw [wellC6_store,
    calc_md_getD0_az idTransform wellC6base wellC6base.incl_data
      (by rw [show wellC6base.incl_data =
            [({ zeroStation with md := (0:ℝ) } : Station),
             { zeroStation with md := (10:ℝ) }] from rfl]; exact
          List.cons_ne_nil _ _),
    wellC6base_correction]
  show get_result_azimuth ((0:ℝ) + 90) = 90
  rw [zero_add]
  exact get_result_azimuth_eq_self 90 (by norm_num) (by norm_num)

theorem wellC6_len : wellC6.incl_data.length = 2 := by
  rw [wellC6_store,
    show wellC6base.incl_data =
      [({ zeroStation with md := (0:ℝ) } : Station),
       { zeroStation with md := (10:ℝ) }] from rfl]
  simp only [calc_inclinometry_by_md, List.map_cons, List.map_nil]
  simp [mdLoop_length]

/-- C6: the trajectory store is NOT immutable after construction in the
program: `Well.__init__` already runs `processing`, yet `InclinometryCalc.proc`
calls `well.processing()` again, which re-runs the integration and applies the
azimuth correction a second time — at this input the stored azimuth moves
from 90 after construction to 180 after `proc`'s second pass. -/
theorem C6_double_processing_bug :
    mkWell idTransform 0 0 0 4284 90 MD_TYPE [(0, 0, 0), (10, 0, 0)] =
      .ok wellC6 ∧
    proc_well idTransform 0 0 0 4284 90 MD_TYPE [(0, 0, 0), (10, 0, 0)] =
      .ok (processing idTransform wellC6) ∧
    (wellC6.incl_data.getD 0 zeroStation).az = 90 ∧
    ((processing idTransform wellC6).incl_data.getD 0 zeroStation).az = 180 := by
  have hw : mkWell idTransform 0 0 0 4284 90 MD_TYPE [(0, 0, 0), (10, 0, 0)] =
      .ok wellC6 := by
    unfold mkWell
    rw [if_pos (Or.inl (rfl : MD_TYPE = MD_TYPE)),
      if_pos (rfl : MD_TYPE = MD_TYPE), wellC6base_build]
    rfl
  refine ⟨hw, ?_, wellC6_az0, ?_⟩
  · unfold proc_well
    rw [hw]
    rfl
  · have hptype : wellC6.processing_type = MD_TYPE := by
      unfold wellC6
      rw [(processing_scalars idTransform wellC6base).2.2.2.2.2]
      rfl
    have hp2 : (processing idTransform wellC6).incl_data =
        calc_inclinometry_by_md idTransform wellC6 wellC6.incl_data := by
      unfold processing
      rw [if_pos hptype]
    have hne2 : wellC6.incl_data ≠ [] := by
      intro hcon
      have := wellC6_len
      rw [hcon] at this
      simp at this
    have htot : total_angle_correction idTransform wellC6 = 90 := by
      unfold wellC6
      rw [total_angle_correction_processing]
      exact wellC6base_correction
    rw [hp2, calc_md_getD0_az idTransform wellC6 wellC6.incl_data hne2,
      wellC6_az0, htot]
    show get_result_azimuth ((90:ℝ) + 90) = 180
    rw [show (90:ℝ) + 90 = 180 by norm_num]
    exact get_result_azimuth_eq_self 180 (by norm_num) (by norm_num)

end Inclinometry
